import Mathlib

set_option maxRecDepth 8000

namespace Wisepanel

/-- Dynamic JSON-like value carried by SSE events (the `unknown` fields of the
TypeScript source); `null` also stands for JavaScript `undefined`. -/
inductive JVal where
  | null
  | bool (b : Bool)
  | num (n : Int)
  | str (s : String)
  | arr (elems : List JVal)
  | obj (fs : List (String × JVal))

/-- JavaScript truthiness: `null`/`undefined`, `false`, `0` and the empty string
are falsy; arrays and objects are always truthy. -/
def truthy : JVal → Bool
  | .null => false
  | .bool b => b
  | .num n => n != 0
  | .str s => s != ""
  | .arr _ => true
  | .obj _ => true

/-- Property access `v[k]`; absent keys and non-objects yield `null`
(JavaScript property access on a missing key gives `undefined`). -/
def jget : JVal → String → JVal
  | .obj fs, k => match fs.lookup k with | some v => v | none => .null
  | _, _ => .null

/-- String payload of a value; non-strings give the empty string (the source
only reads these positions after a truthiness check on string-typed fields). -/
def toStr : JVal → String
  | .str s => s
  | _ => ""

/-- Numeric payload of a value; non-numbers give 0. -/
def toNum : JVal → Int
  | .num n => n
  | _ => 0

/-- Array payload of a value; non-arrays give the empty list. -/
def toArr : JVal → List JVal
  | .arr xs => xs
  | _ => []

/-- Source pattern `(v as string) || d`. -/
def strOrFalsy (v : JVal) (d : String) : String := if truthy v then toStr v else d

/-- Source pattern `(v as number) || d`. -/
def numOrFalsy (v : JVal) (d : Int) : Int := if truthy v then toNum v else d

/-- Source pattern `(v as number) ?? d` (nullish coalescing: only
`null`/`undefined` fall back, `0` does not). -/
def numOrNullish (v : JVal) (d : Int) : Int :=
  match v with
  | .null => d
  | v => toNum v

/-- Source pattern `(v as Array) || []`. -/
def arrOrFalsy (v : JVal) : List JVal := if truthy v then toArr v else []

/-- Source pattern `(v as string) || undefined`. -/
def strOrNone (v : JVal) : Option String := if truthy v then some (toStr v) else none

/-- Source pattern `(v as number) || undefined`. -/
def numOrNone (v : JVal) : Option Int := if truthy v then some (toNum v) else none

/-- One decoded SSE message: a `type` tag plus an open bag of fields
(interface `SSEEvent` of event-buffer.ts). -/
structure SSEEvent where
  type : String
  fields : List (String × JVal)

/-- Field access `event[k]` on an event. -/
def eget (e : SSEEvent) (k : String) : JVal :=
  match e.fields.lookup k with
  | some v => v
  | none => .null

/-- The four run lifecycle statuses of `RunState.status`. -/
inductive Status where
  | running
  | completed
  | failed
  | canceled
  deriving DecidableEq

/-- Interface `RunState` of event-buffer.ts. -/
structure RunState where
  events : List SSEEvent
  lastPollIndex : Nat
  status : Status
  agentsTotal : Int
  agentsResponded : Int
  estimatedCost : Int
  finalResult : Option SSEEvent
  topic : String

/-- The state `createRun` installs for a new run. -/
def freshRun : RunState :=
  { events := [], lastPollIndex := 0, status := .running,
    agentsTotal := 0, agentsResponded := 0, estimatedCost := 0,
    finalResult := none, topic := "" }

/-- The fixed `INTERESTING_TYPES` set of event-buffer.ts. -/
def INTERESTING_TYPES : List String :=
  ["agent_response", "phase_start", "conversation_complete",
   "final", "error", "cost_estimation", "agents_created",
   "billing_complete", "roles_generated"]

/-- Membership in `INTERESTING_TYPES`. -/
def interesting (t : String) : Bool := INTERESTING_TYPES.contains t

/-- The mutable state of one suspended `waitForEvents` call, i.e. of its
`settle` closure: the run id it registered under, the single-shot `settled`
guard, whether its timeout timer is still pending, and how many times the
promise was resolved. -/
structure WaiterState where
  runId : String
  settled : Bool
  timerActive : Bool
  resolveCount : Nat

/-- The `EventBuffer` class state: the `runs` map, the `waiters` map
(a missing key is the empty list), the states of all waiter closures ever
created (identified by the counter `nextW`). -/
@[ext] structure EventBuffer where
  runs : String → Option RunState
  waiters : String → List Nat
  wstates : Nat → WaiterState
  nextW : Nat

/-- A freshly constructed buffer: no runs, no waiters. -/
def emptyBuffer : EventBuffer :=
  { runs := fun _ => none, waiters := fun _ => [],
    wstates := fun _ => ⟨"", true, false, 0⟩, nextW := 0 }

/-- EventBuffer.createRun: unconditionally installs a fresh `RunState` under
the id (the source calls `this.runs.set(runId, {...})` with no existence
check). -/
def createRun (b : EventBuffer) (runId : String) : EventBuffer :=
  { b with runs := fun id => if id = runId then some freshRun else b.runs id }

/-- EventBuffer.removeWaiter: drop the first occurrence of the waiter from the
run's list (the source uses `indexOf` + `splice`). -/
def removeWaiter (b : EventBuffer) (runId : String) (w : Nat) : EventBuffer :=
  { b with waiters := fun id => if id = runId then (b.waiters runId).erase w else b.waiters id }

/-- The `settle` closure created inside `waitForEvents`: a single-shot
settlement that clears the timer, deregisters itself and resolves, unless it
already settled. -/
def settle (b : EventBuffer) (w : Nat) : EventBuffer :=
  let ws := b.wstates w
  if ws.settled then b
  else
    let b1 := removeWaiter b ws.runId w
    { b1 with wstates := fun i => if i = w then
        { ws with settled := true, timerActive := false, resolveCount := ws.resolveCount + 1 }
      else b1.wstates i }

/-- EventBuffer.notifyWaiters: copy the registered list, clear the map entry,
then invoke every copied waiter's `settle`. -/
def notifyWaiters (b : EventBuffer) (runId : String) : EventBuffer :=
  let copy := b.waiters runId
  let cleared : EventBuffer :=
    { b with waiters := fun id => if id = runId then [] else b.waiters id }
  copy.foldl settle cleared

/-- The per-run mutation of EventBuffer.addEvent: push the event, then the
`switch` on `event.type`. -/
def addEventRun (run : RunState) (e : SSEEvent) : RunState :=
  let r0 : RunState := { run with events := run.events ++ [e] }
  match e.type with
  | "connection" =>
      if truthy (eget e "topic") then { r0 with topic := toStr (eget e "topic") } else r0
  | "agents_created" => { r0 with agentsTotal := numOrNullish (eget e "count") 0 }
  | "agent_response" => { r0 with agentsResponded := r0.agentsResponded + 1 }
  | "cost_estimation" => { r0 with estimatedCost := numOrNullish (eget e "estimated_cost") 0 }
  | "final" =>
      let st := match eget e "status" with
        | .str "canceled" => Status.canceled
        | _ => Status.completed
      let newTopic :=
        if r0.topic = "" then
          if truthy (jget (eget e "conversation") "topic") then
            toStr (jget (eget e "conversation") "topic")
          else r0.topic
        else r0.topic
      { r0 with status := st, finalResult := some e, topic := newTopic }
  | "error" => { r0 with status := .failed }
  | "cancelled" => { r0 with status := .canceled }
  | _ => r0

/-- EventBuffer.addEvent: no-op on unknown run ids; otherwise update the run
and, if the event is interesting or is the cancellation signal, notify the
waiters for that run. -/
def addEvent (b : EventBuffer) (runId : String) (e : SSEEvent) : EventBuffer :=
  match b.runs runId with
  | none => b
  | some run =>
      let b1 : EventBuffer :=
        { b with runs := fun id => if id = runId then some (addEventRun run e) else b.runs id }
      if interesting e.type || e.type == "cancelled" then notifyWaiters b1 runId else b1

/-- Outcome of the synchronous part of `waitForEvents`: an immediately
resolved promise, or a registered waiter. -/
inductive WaitOutcome where
  | immediate
  | registered (w : Nat)
  deriving DecidableEq

/-- EventBuffer.waitForEvents up to its suspension point: resolve immediately
when the run is unknown, has pending interesting events past the cursor, or is
no longer running; otherwise register a fresh waiter with a pending timer
(timer expiry is modelled as a later `settle` invocation). -/
def waitForEvents (b : EventBuffer) (runId : String) : WaitOutcome × EventBuffer :=
  match b.runs runId with
  | none => (.immediate, b)
  | some run =>
      let hasNew := (run.events.drop run.lastPollIndex).any (fun e => interesting e.type)
      if hasNew ∨ run.status ≠ Status.running then (.immediate, b)
      else
        let w := b.nextW
        (.registered w,
          { b with
            nextW := w + 1,
            waiters := fun id => if id = runId then b.waiters runId ++ [w] else b.waiters id,
            wstates := fun i => if i = w then ⟨runId, false, true, 0⟩ else b.wstates i })

/-- The record returned by EventBuffer.getNewEvents. -/
structure PollResult where
  status : Status
  newEvents : List SSEEvent
  agentsResponded : Int
  agentsTotal : Int

/-- EventBuffer.getNewEvents: `null` for unknown runs; otherwise the
interesting events strictly past the cursor, advancing the cursor to the end
of the log. -/
def getNewEvents (b : EventBuffer) (runId : String) : Option PollResult × EventBuffer :=
  match b.runs runId with
  | none => (none, b)
  | some run =>
      let newEvents := (run.events.drop run.lastPollIndex).filter (fun e => interesting e.type)
      let run' : RunState := { run with lastPollIndex := run.events.length }
      (some { status := run.status, newEvents := newEvents,
              agentsResponded := run.agentsResponded, agentsTotal := run.agentsTotal },
       { b with runs := fun id => if id = runId then some run' else b.runs id })

/-- EventBuffer.getResult. -/
def getResult (b : EventBuffer) (runId : String) : Option (Status × Option SSEEvent) :=
  (b.runs runId).map (fun run => (run.status, run.finalResult))

/-- The record returned by EventBuffer.getRunInfo. -/
structure RunInfo where
  status : Status
  agentsTotal : Int
  agentsResponded : Int
  estimatedCost : Int

/-- EventBuffer.getRunInfo. -/
def getRunInfo (b : EventBuffer) (runId : String) : Option RunInfo :=
  (b.runs runId).map (fun run =>
    { status := run.status, agentsTotal := run.agentsTotal,
      agentsResponded := run.agentsResponded, estimatedCost := run.estimatedCost })

/-- EventBuffer.has. -/
def hasRun (b : EventBuffer) (runId : String) : Bool := (b.runs runId).isSome

/-- EventBuffer.setStatus: administrative status override, no-op on unknown
run ids. -/
def setStatus (b : EventBuffer) (runId : String) (st : Status) : EventBuffer :=
  match b.runs runId with
  | none => b
  | some run =>
      { b with runs := fun id => if id = runId then some { run with status := st } else b.runs id }

/-- List-of-characters prefix test (used for the `<think>` tag scan). -/
def startsWithL : List Char → List Char → Bool
  | [], _ => true
  | _ :: _, [] => false
  | p :: ps, c :: cs => p == c && startsWithL ps cs

/-- The opening tag of the reasoning-trace markup. -/
def thinkOpen : List Char := "<think>".toList

/-- The closing tag of the reasoning-trace markup. -/
def thinkClose : List Char := "</think>".toList

/-- Scan for the earliest occurrence of the closing tag and return what
follows it; this realises the lazy part of the regex in `stripThinkTags`. -/
def findClose : List Char → Option (List Char)
  | [] => none
  | c :: rest =>
      if startsWithL thinkClose (c :: rest) then some (List.drop 8 (c :: rest))
      else findClose rest

theorem findClose_length_lt : ∀ (l r : List Char), findClose l = some r → r.length < l.length := by
  intro l
  induction l with
  | nil => intro r h; simp [findClose] at h
  | cons c rest ih =>
      intro r h
      simp only [findClose] at h
      by_cases hp : startsWithL thinkClose (c :: rest) = true
      · rw [if_pos hp] at h
        cases h
        simp only [List.length_drop, List.length_cons]
        omega
      · rw [if_neg hp] at h
        have := ih r h
        simp only [List.length_cons]
        omega

/-- The global non-greedy replacement in `stripThinkTags`: delete every
occurrence of the reasoning-trace markup, leaving an unterminated opening tag
and everything after it untouched (the regex does not match there). -/
def stripAux (l : List Char) : List Char :=
  match l with
  | [] => []
  | c :: rest =>
      if startsWithL thinkOpen (c :: rest) then
        match h : findClose (List.drop 7 (c :: rest)) with
        | some rem => stripAux rem
        | none => c :: rest
      else c :: stripAux rest
termination_by l.length
decreasing_by
  · have h1 := findClose_length_lt _ _ h
    simp only [List.length_drop, List.length_cons] at h1 ⊢
    omega
  · simp only [List.length_cons]
    omega

/-- Whitespace recognised by the trailing `.trim()` of the source. -/
def isWs (c : Char) : Bool :=
  c == ' ' || c == '\t' || c == '\n' || c == '\r' || c == '\x0b' || c == '\x0c'

/-- String trim applied after the replacement. -/
def trimChars (l : List Char) : List Char :=
  ((l.dropWhile isWs).reverse.dropWhile isWs).reverse

/-- Function `stripThinkTags` of event-buffer.ts. -/
def stripThinkTags (message : String) : String :=
  String.mk (trimChars (stripAux message.toList))

/-- Function `inferTopology` of event-buffer.ts. -/
def inferTopology (agentCount : Int) : String :=
  if agentCount ≤ 4 then "small"
  else if agentCount ≤ 6 then "medium"
  else "large"

/-- One entry of `CommonsPublishData.responses`. -/
structure RespEntry where
  round : Int
  agent : String
  role : String
  message : String
  model : Option String
  provider : Option String

/-- Interface `CommonsPublishData` of client.ts (metadata field unused by the
buffer and omitted). -/
structure CommonsPublishData where
  runId : String
  topic : String
  topologyType : String
  numRounds : Int
  modelGroup : String
  agentCount : Int
  totalTokens : Option Int
  durationSeconds : Option Int
  responses : List RespEntry

/-- The `responses.push({...})` body of `getPublishData` for one response. -/
def mkRespEntry (roundNum : Int) (r : JVal) : RespEntry :=
  { round := roundNum,
    agent := strOrFalsy (jget r "agent_name") "",
    role := strOrFalsy (jget r "agent_role") "",
    message := stripThinkTags (strOrFalsy (jget r "message") ""),
    model := strOrNone (jget r "model"),
    provider := strOrNone (jget r "provider") }

/-- The nested `for` loops of `getPublishData`, accumulating pushes into the
`responses` array. -/
def buildResponses (roundResults : List JVal) : List RespEntry :=
  roundResults.foldl
    (fun acc rd =>
      (arrOrFalsy (jget rd "node_results")).foldl
        (fun acc2 node =>
          (arrOrFalsy (jget node "responses")).foldl
            (fun acc3 r => acc3 ++ [mkRespEntry (numOrFalsy (jget node "round") 1) r])
            acc2)
        acc)
    []

/-- EventBuffer.getPublishData, translated clause by clause from the source. -/
def getPublishData (b : EventBuffer) (runId : String) : Option CommonsPublishData :=
  match b.runs runId with
  | none => none
  | some run =>
      if run.status ≠ Status.completed then none
      else
        match run.finalResult with
        | none => none
        | some final =>
            let conv := eget final "conversation"
            if truthy conv then
              let connectionEvent := run.events.find? (fun e => e.type == "connection")
              let apiRunId :=
                match connectionEvent with
                | some ce => strOrFalsy (eget ce "run_id") runId
                | none => runId
              let topologyType :=
                if truthy (jget conv "polyhedron_type") then toStr (jget conv "polyhedron_type")
                else if truthy (jget conv "topology_type") then toStr (jget conv "topology_type")
                else if truthy (jget conv "topology") then toStr (jget conv "topology")
                else inferTopology run.agentsTotal
              some
                { runId := apiRunId,
                  topic := strOrFalsy (jget conv "topic") "",
                  topologyType := topologyType,
                  numRounds := numOrFalsy (jget conv "total_rounds") 1,
                  modelGroup := strOrFalsy (jget conv "model_group") "mixed",
                  agentCount := run.agentsTotal,
                  totalTokens := numOrNone (jget conv "total_tokens"),
                  durationSeconds :=
                    match numOrNone (jget conv "duration_seconds") with
                    | some d => some d
                    | none => numOrNone (jget conv "duration"),
                  responses := buildResponses (arrOrFalsy (jget conv "round_results")) }
            else none

/-- Modelled from the spec's wording of `getPublishData`: a not-available
sentinel whenever the run is unknown, not `completed`, has no cached terminal
result, or the terminal payload lacks the conversation structure; otherwise
the per-agent responses flattened from the nested round results in original
(round, node, response) order, each entry's round taken from its node and the
reasoning-trace markup stripped from each message, with the topology label
falling back to agent-count inference (at most 4 small, at most 6 medium,
else large) when the payload has no explicit topology field. -/
def getPublishDataSpec (b : EventBuffer) (runId : String) : Option CommonsPublishData :=
  match b.runs runId with
  | none => none
  | some run =>
      match run.finalResult with
      | none => none
      | some final =>
          let conv := eget final "conversation"
          if run.status = Status.completed ∧ truthy conv = true then
            some
              { runId :=
                  match run.events.find? (fun e => e.type == "connection") with
                  | some ce => strOrFalsy (eget ce "run_id") runId
                  | none => runId,
                topic := strOrFalsy (jget conv "topic") "",
                topologyType :=
                  if truthy (jget conv "polyhedron_type") then toStr (jget conv "polyhedron_type")
                  else if truthy (jget conv "topology_type") then toStr (jget conv "topology_type")
                  else if truthy (jget conv "topology") then toStr (jget conv "topology")
                  else if run.agentsTotal ≤ 4 then "small"
                  else if run.agentsTotal ≤ 6 then "medium"
                  else "large",
                numRounds := numOrFalsy (jget conv "total_rounds") 1,
                modelGroup := strOrFalsy (jget conv "model_group") "mixed",
                agentCount := run.agentsTotal,
                totalTokens := numOrNone (jget conv "total_tokens"),
                durationSeconds :=
                  match numOrNone (jget conv "duration_seconds") with
                  | some d => some d
                  | none => numOrNone (jget conv "duration"),
                responses :=
                  (arrOrFalsy (jget conv "round_results")).flatMap (fun rd =>
                    (arrOrFalsy (jget rd "node_results")).flatMap (fun node =>
                      (arrOrFalsy (jget node "responses")).map
                        (mkRespEntry (numOrFalsy (jget node "round") 1)))) }
          else none

/-- Single-run poll-loop operations: the event appends and the sequential
(non-interleaved) `getNewEvents` calls of one run's polling loop. -/
inductive POp where
  | padd (e : SSEEvent)
  | ppoll

/-- Execute one poll-loop operation on the buffer. -/
def papply (runId : String) (b : EventBuffer) : POp → EventBuffer
  | .padd e => addEvent b runId e
  | .ppoll => (getNewEvents b runId).2

/-- Execute a poll-loop trace. -/
def prun (runId : String) (b : EventBuffer) : List POp → EventBuffer
  | [] => b
  | op :: ops => prun runId (papply runId b op) ops

/-- Concatenation of all batches returned by the `getNewEvents` calls of a
trace, in call order. -/
def pdelivered (runId : String) (b : EventBuffer) : List POp → List SSEEvent
  | [] => []
  | .padd e :: ops => pdelivered runId (addEvent b runId e) ops
  | .ppoll :: ops =>
      (match (getNewEvents b runId).1 with
       | some res => res.newEvents
       | none => []) ++ pdelivered runId ((getNewEvents b runId).2) ops

/-- The events appended by a trace, in order. -/
def appendedEvents : List POp → List SSEEvent
  | [] => []
  | .padd e :: ops => e :: appendedEvents ops
  | .ppoll :: ops => appendedEvents ops

/-- Whole-buffer operations, for the global invariants. -/
inductive BufOp where
  | bcreate (r : String)
  | badd (r : String) (e : SSEEvent)
  | bpoll (r : String)
  | bset (r : String) (st : Status)
  | bwait (r : String)

/-- Execute one whole-buffer operation. -/
def applyBufOp (b : EventBuffer) : BufOp → EventBuffer
  | .bcreate r => createRun b r
  | .badd r e => addEvent b r e
  | .bpoll r => (getNewEvents b r).2
  | .bset r st => setStatus b r st
  | .bwait r => (waitForEvents b r).2

/-- Execute a list of whole-buffer operations. -/
def runBufOps (b : EventBuffer) : List BufOp → EventBuffer
  | [] => b
  | op :: ops => runBufOps (applyBufOp b op) ops

/-- The cursor-bound invariant: every tracked run's read cursor is at most its
event log length. -/
def CursorInv (b : EventBuffer) : Prop :=
  ∀ id run, b.runs id = some run → run.lastPollIndex ≤ run.events.length

/-- Repeated invocation of one waiter's `settle` closure (by any mix of
notification and timer triggers). -/
def settleIter (b : EventBuffer) (w : Nat) : Nat → EventBuffer
  | 0 => b
  | n + 1 => settle (settleIter b w n) w

/-- The connection event of the README scenario. -/
def evConn : SSEEvent := ⟨"connection", [("run_id", JVal.str "R1"), ("topic", JVal.str "X")]⟩

/-- An agents-created event with count 4. -/
def evAgents : SSEEvent := ⟨"agents_created", [("count", JVal.num 4)]⟩

/-- A bare agent response. -/
def evResp : SSEEvent := ⟨"agent_response", []⟩

/-- A bare terminal error event. -/
def evErr : SSEEvent := ⟨"error", []⟩

/-- A terminal success event with no payload fields. -/
def evFinalPlain : SSEEvent := ⟨"final", []⟩

/-- An explicit cancellation event. -/
def evCancelled : SSEEvent := ⟨"cancelled", []⟩

/-- Scenario state after createRun, the connection event and the
agents-created event. -/
def scenarioStep2 : EventBuffer :=
  addEvent (addEvent (createRun emptyBuffer "R1") "R1" evConn) "R1" evAgents

/-- Scenario state after four further agent responses. -/
def scenarioBuf : EventBuffer :=
  addEvent (addEvent (addEvent (addEvent scenarioStep2 "R1" evResp) "R1" evResp) "R1" evResp)
    "R1" evResp

/-- A run that received one event and then a duplicate createRun. -/
def dupA : EventBuffer := addEvent (createRun emptyBuffer "R1") "R1" evResp

/-- The duplicate createRun applied on top of `dupA`. -/
def dupB : EventBuffer := createRun dupA "R1"

/-- A run that saw a terminal error and then a terminal success event. -/
def termA : EventBuffer := addEvent (createRun emptyBuffer "R1") "R1" evErr

/-- Second stage of the terminal-overwrite scenario. -/
def termB : EventBuffer := addEvent termA "R1" evFinalPlain

/-- A buffer with one running run and one registered, unsettled waiter. -/
def waiterBuf : EventBuffer :=
  { runs := fun id => if id = "R1" then some freshRun else none,
    waiters := fun id => if id = "R1" then [0] else [],
    wstates := fun _ => ⟨"R1", false, true, 0⟩,
    nextW := 1 }

theorem settle_runs (b : EventBuffer) (w : Nat) : (settle b w).runs = b.runs := by
  unfold settle removeWaiter
  by_cases h : (b.wstates w).settled
  · simp [h]
  · simp [h]

theorem foldl_settle_runs (l : List Nat) : ∀ (b : EventBuffer), (l.foldl settle b).runs = b.runs := by
  induction l with
  | nil => intro b; rfl
  | cons w ws ih => intro b; rw [List.foldl_cons, ih, settle_runs]

theorem notifyWaiters_runs (b : EventBuffer) (r : String) : (notifyWaiters b r).runs = b.runs := by
  unfold notifyWaiters
  rw [foldl_settle_runs]

theorem addEvent_runs_of_some {b : EventBuffer} {runId : String} {run : RunState}
    (h : b.runs runId = some run) (e : SSEEvent) :
    (addEvent b runId e).runs =
      fun id => if id = runId then some (addEventRun run e) else b.runs id := by
  unfold addEvent
  rw [h]
  by_cases hn : (interesting e.type || e.type == "cancelled") = true
  · simp only [hn, if_pos, notifyWaiters_runs]
  · simp only [hn, if_neg]
    simp at hn
    simp [hn]

theorem addEvent_runs_of_none {b : EventBuffer} {runId : String}
    (h : b.runs runId = none) (e : SSEEvent) : addEvent b runId e = b := by
  unfold addEvent
  rw [h]

theorem addEventRun_events (run : RunState) (e : SSEEvent) :
    (addEventRun run e).events = run.events ++ [e] := by
  unfold addEventRun
  repeat' split
  all_goals rfl

theorem addEventRun_lastPollIndex (run : RunState) (e : SSEEvent) :
    (addEventRun run e).lastPollIndex = run.lastPollIndex := by
  unfold addEventRun
  repeat' split
  all_goals rfl

theorem addEventRun_status_running (run : RunState) (e : SSEEvent)
    (h : (addEventRun run e).status = Status.running) : run.status = Status.running := by
  unfold addEventRun at h
  revert h
  repeat' split
  all_goals intro h
  all_goals simp_all

theorem getNewEvents_runs_of_some {b : EventBuffer} {runId : String} {run : RunState}
    (h : b.runs runId = some run) :
    ((getNewEvents b runId).2).runs =
      fun id => if id = runId then some { run with lastPollIndex := run.events.length } else b.runs id := by
  unfold getNewEvents
  rw [h]

theorem getNewEvents_fst_of_some {b : EventBuffer} {runId : String} {run : RunState}
    (h : b.runs runId = some run) :
    (getNewEvents b runId).1 =
      some { status := run.status,
             newEvents := (run.events.drop run.lastPollIndex).filter (fun e => interesting e.type),
             agentsResponded := run.agentsResponded, agentsTotal := run.agentsTotal } := by
  unfold getNewEvents
  rw [h]

theorem setStatus_runs_of_some {b : EventBuffer} {runId : String} {run : RunState}
    (h : b.runs runId = some run) (st : Status) :
    (setStatus b runId st).runs =
      fun id => if id = runId then some { run with status := st } else b.runs id := by
  unfold setStatus
  rw [h]

theorem waitForEvents_runs (b : EventBuffer) (r : String) :
    ((waitForEvents b r).2).runs = b.runs := by
  unfold waitForEvents
  cases h : b.runs r with
  | none => rfl
  | some run =>
      by_cases hc : ((run.events.drop run.lastPollIndex).any (fun e => interesting e.type) = true
          ∨ run.status ≠ Status.running)
      · simp only [hc, if_pos]
      · simp only [hc, if_neg, not_false_eq_true]

theorem settle_of_settled {b : EventBuffer} {w : Nat}
    (h : (b.wstates w).settled = true) : settle b w = b := by
  unfold settle
  simp [h]

theorem settle_wstates_self {b : EventBuffer} {w : Nat}
    (h : (b.wstates w).settled = false) :
    (settle b w).wstates w =
      { b.wstates w with
        settled := true, timerActive := false,
        resolveCount := (b.wstates w).resolveCount + 1 } := by
  unfold settle removeWaiter
  simp [h]

theorem settle_wstates_other {b : EventBuffer} {w i : Nat} (hne : i ≠ w) :
    (settle b w).wstates i = b.wstates i := by
  unfold settle removeWaiter
  by_cases h : (b.wstates w).settled = true
  · simp [h]
  · simp only [Bool.not_eq_true] at h
    simp [h, hne]

theorem settle_waiters_empty {b : EventBuffer} {r : String} (w : Nat)
    (h : b.waiters r = []) : (settle b w).waiters r = [] := by
  unfold settle removeWaiter
  by_cases hs : (b.wstates w).settled = true
  · simp [hs, h]
  · simp only [Bool.not_eq_true] at hs
    simp only [hs, Bool.false_eq_true, if_false]
    by_cases hr : r = (b.wstates w).runId
    · simp [← hr, h]
    · simp [hr, h]

theorem foldl_settle_waiters_empty (l : List Nat) :
    ∀ (b : EventBuffer) (r : String), b.waiters r = [] →
      (l.foldl settle b).waiters r = [] := by
  induction l with
  | nil => intro b r h; exact h
  | cons w ws ih =>
      intro b r h
      rw [List.foldl_cons]
      exact ih _ _ (settle_waiters_empty w h)

theorem notify_clears (b : EventBuffer) (r : String) :
    (notifyWaiters b r).waiters r = [] := by
  unfold notifyWaiters
  apply foldl_settle_waiters_empty
  simp

theorem notify_idem (b : EventBuffer) (r : String) :
    notifyWaiters (notifyWaiters b r) r = notifyWaiters b r := by
  have hc : (notifyWaiters b r).waiters r = [] := notify_clears b r
  set B := notifyWaiters b r with hB
  show notifyWaiters B r = B
  unfold notifyWaiters
  rw [hc]
  simp only [List.foldl_nil]
  apply EventBuffer.ext
  · rfl
  · funext id
    by_cases h : id = r
    · simp [h, hc]
    · simp [h]
  · rfl
  · rfl

theorem foldl_settle_wstates_not_mem (l : List Nat) :
    ∀ (b : EventBuffer) (w : Nat), w ∉ l → ((l.foldl settle b).wstates w) = b.wstates w := by
  induction l with
  | nil => intro b w _; rfl
  | cons x xs ih =>
      intro b w hw
      rw [List.foldl_cons]
      have hx : w ≠ x := fun h => hw (h ▸ List.mem_cons_self x xs)
      rw [ih _ _ (fun h => hw (List.mem_cons_of_mem x h)), settle_wstates_other hx]

theorem foldl_settle_wakes (l : List Nat) :
    ∀ (b : EventBuffer), l.Nodup → (∀ x ∈ l, (b.wstates x).settled = false) →
      ∀ w ∈ l, ((l.foldl settle b).wstates w).settled = true ∧
        ((l.foldl settle b).wstates w).timerActive = false ∧
        ((l.foldl settle b).wstates w).resolveCount = (b.wstates w).resolveCount + 1 := by
  induction l with
  | nil => intro b _ _ w hw; exact absurd hw (List.not_mem_nil w)
  | cons x xs ih =>
      intro b hnd hun w hw
      rw [List.foldl_cons]
      have hndx := List.nodup_cons.mp hnd
      rcases List.mem_cons.mp hw with hwx | hwxs
      · subst hwx
        have hx := settle_wstates_self (hun w (List.mem_cons_self w xs))
        have hnm : w ∉ xs := hndx.1
        rw [foldl_settle_wstates_not_mem xs _ w hnm, hx]
        exact ⟨rfl, rfl, rfl⟩
      · have hne : w ≠ x := fun h => hndx.1 (h ▸ hwxs)
        have hpres : ∀ y ∈ xs, ((settle b x).wstates y).settled = false := by
          intro y hy
          have hyx : y ≠ x := fun h => hndx.1 (h ▸ hy)
          rw [settle_wstates_other hyx]
          exact hun y (List.mem_cons_of_mem x hy)
        have := ih (settle b x) hndx.2 hpres w hwxs
        rwa [settle_wstates_other hne] at this

theorem notify_wakes (b : EventBuffer) (r : String)
    (hnd : (b.waiters r).Nodup)
    (hw : ∀ x ∈ b.waiters r, (b.wstates x).settled = false) :
    ∀ w ∈ b.waiters r, ((notifyWaiters b r).wstates w).settled = true ∧
      ((notifyWaiters b r).wstates w).timerActive = false ∧
      ((notifyWaiters b r).wstates w).resolveCount = (b.wstates w).resolveCount + 1 := by
  unfold notifyWaiters
  exact foldl_settle_wakes (b.waiters r) _ hnd hw

/-- C2 counterexample: `createRun` on an existing id is not a no-op — after
one event has been buffered, a second `createRun` for the same id resets the
event log and the responded counter, so the state after the second call
differs from the state before it. -/
theorem createRun_second_call_not_noop :
    (dupA.runs "R1").map (fun run => run.events.length) = some 1 ∧
    (dupB.runs "R1").map (fun run => run.events.length) = some 0 ∧
    (dupA.runs "R1").map (fun run => run.agentsResponded) = some 1 ∧
    (dupB.runs "R1").map (fun run => run.agentsResponded) = some 0 :=
  ⟨rfl, rfl, rfl, rfl⟩

/-- C2 (amended): `createRun` on an existing id re-initializes the run to the
fresh empty state (discarding any accumulated log, cursor, status and
counters); consequently two consecutive `createRun` calls with no operations
in between leave the buffer identical to a single call. -/
theorem createRun_reinitializes :
    ∀ (b : EventBuffer) (r : String),
      createRun (createRun b r) r = createRun b r ∧
      (createRun b r).runs r = some freshRun := by
  intro b r
  constructor
  · apply EventBuffer.ext
    · funext id
      by_cases h : id = r
      · simp [createRun, h]
      · simp [createRun, h]
    · rfl
    · rfl
    · rfl
  · simp [createRun]

/-- C4: `waitForEvents` resolves immediately, leaving the buffer unchanged
(registering no waiter), exactly when the run id is unknown, the run's status
is not `running`, or an interesting event exists strictly after the run's
read cursor. -/
theorem waitForEvents_immediate_iff :
    ∀ (b : EventBuffer) (r : String),
      ((waitForEvents b r).1 = WaitOutcome.immediate ↔
        b.runs r = none ∨ ∃ run, b.runs r = some run ∧
          (run.status ≠ Status.running ∨
            ∃ e ∈ run.events.drop run.lastPollIndex, interesting e.type = true))
      ∧ ((waitForEvents b r).1 = WaitOutcome.immediate → (waitForEvents b r).2 = b) := by
  intro b r
  cases h : b.runs r with
  | none =>
      constructor
      · constructor
        · intro _; exact Or.inl rfl
        · intro _; unfold waitForEvents; rw [h]
      · intro _; unfold waitForEvents; rw [h]
  | some run =>
      by_cases hc : ((run.events.drop run.lastPollIndex).any (fun e => interesting e.type) = true
          ∨ run.status ≠ Status.running)
      · have hfst : (waitForEvents b r).1 = WaitOutcome.immediate := by
          unfold waitForEvents; rw [h]; simp only [hc, if_pos]
        constructor
        · constructor
          · intro _
            refine Or.inr ⟨run, rfl, ?_⟩
            rcases hc with hnew | hst
            · exact Or.inr (List.any_eq_true.mp hnew)
            · exact Or.inl hst
          · intro _; exact hfst
        · intro _; unfold waitForEvents; rw [h]; simp only [hc, if_pos]
      · have hfst : (waitForEvents b r).1 = WaitOutcome.registered b.nextW := by
          unfold waitForEvents; rw [h]; simp only [hc, if_neg, not_false_eq_true]
        constructor
        · constructor
          · intro habs
            rw [hfst] at habs
            exact absurd habs (by simp)
          · intro hrhs
            exfalso
            rcases hrhs with hnone | ⟨run2, hrun2, hdis⟩
            · exact Option.noConfusion hnone
            · cases Option.some.inj hrun2
              apply hc
              rcases hdis with hst | hnew
              · exact Or.inr hst
              · exact Or.inl (List.any_eq_true.mpr hnew)
        · intro habs
          rw [hfst] at habs
          exact absurd habs (by simp)

/-- C4 witness: `waitForEvents` on an unknown run id resolves immediately and
does not change the buffer. -/
theorem waitForEvents_missing_run_immediate :
    (waitForEvents emptyBuffer "missing-run").1 = WaitOutcome.immediate ∧
    (waitForEvents emptyBuffer "missing-run").2 = emptyBuffer := by
  have h := waitForEvents_immediate_iff emptyBuffer "missing-run"
  have h1 : (waitForEvents emptyBuffer "missing-run").1 = WaitOutcome.immediate :=
    h.1.mpr (Or.inl rfl)
  exact ⟨h1, h.2 h1⟩

/-- C10: every run-scoped operation leaves the full state of every run with a
different id unchanged. -/
theorem per_run_isolation :
    ∀ (b : EventBuffer) (r id : String) (e : SSEEvent) (st : Status), id ≠ r →
      (createRun b r).runs id = b.runs id ∧
      (addEvent b r e).runs id = b.runs id ∧
      ((getNewEvents b r).2).runs id = b.runs id ∧
      (setStatus b r st).runs id = b.runs id ∧
      ((waitForEvents b r).2).runs id = b.runs id := by
  intro b r id e st hne
  refine ⟨?_, ?_, ?_, ?_, ?_⟩
  · simp [createRun, hne]
  · cases h : b.runs r with
    | none => rw [addEvent_runs_of_none h]
    | some run => rw [addEvent_runs_of_some h]; simp [hne]
  · cases h : b.runs r with
    | none => unfold getNewEvents; rw [h]
    | some run => rw [getNewEvents_runs_of_some h]; simp [hne]
  · cases h : b.runs r with
    | none => unfold setStatus; rw [h]
    | some run => rw [setStatus_runs_of_some h]; simp [hne]
  · rw [waitForEvents_runs]

/-- C10 witness: a concrete instantiation of per-run isolation. -/
theorem per_run_isolation_concrete :
    (createRun (createRun emptyBuffer "A") "A").runs "B" = (createRun emptyBuffer "A").runs "B" ∧
    (addEvent (createRun emptyBuffer "A") "A" evResp).runs "B" = (createRun emptyBuffer "A").runs "B" ∧
    ((getNewEvents (createRun emptyBuffer "A") "A").2).runs "B" = (createRun emptyBuffer "A").runs "B" ∧
    (setStatus (createRun emptyBuffer "A") "A" Status.canceled).runs "B" = (createRun emptyBuffer "A").runs "B" ∧
    ((waitForEvents (createRun emptyBuffer "A") "A").2).runs "B" = (createRun emptyBuffer "A").runs "B" :=
  per_run_isolation (createRun emptyBuffer "A") "A" "B" evResp Status.canceled (by decide)

/-- C5 counterexample: in the README scenario the connection event is not
interesting and is absent from `newEvents`; the five delivered entries are the
agents-created event and the four agent responses. -/
theorem scenario_connection_not_interesting :
    interesting "connection" = false ∧
    ((getNewEvents scenarioBuf "R1").1).map (fun res => res.newEvents.map (fun e => e.type)) =
      some ["agents_created", "agent_response", "agent_response", "agent_response",
        "agent_response"] :=
  ⟨rfl, rfl⟩

/-- C5 (amended): in the scenario, `getRunInfo` reports 4 expected agents
after the agents-created event; after four agent responses, `getNewEvents`
reports 4 responded agents and delivers exactly 5 interesting entries — the
agents-created event and the four responses, in insertion order — while the
connection event, not being in the interesting set, is excluded. -/
theorem scenario_five_interesting_entries :
    (getRunInfo scenarioStep2 "R1").map (fun i => i.agentsTotal) = some 4 ∧
    ((getNewEvents scenarioBuf "R1").1).map (fun res => res.agentsResponded) = some 4 ∧
    ((getNewEvents scenarioBuf "R1").1).map (fun res => res.agentsTotal) = some 4 ∧
    ((getNewEvents scenarioBuf "R1").1).map (fun res => res.newEvents) =
      some [evAgents, evResp, evResp, evResp, evResp] ∧
    ((getNewEvents scenarioBuf "R1").1).map (fun res => res.newEvents.length) = some 5 :=
  ⟨rfl, rfl, rfl, rfl, rfl⟩

/-- C7 counterexample: a terminal status is not sticky — after an error event
set the status to `failed`, a later terminal success event overwrites it with
`completed`, so an ingested event does change a terminal status to a
different one. -/
theorem terminal_status_overwritten :
    (termA.runs "R1").map (fun run => run.status) = some Status.failed ∧
    (termB.runs "R1").map (fun run => run.status) = some Status.completed :=
  ⟨rfl, rfl⟩

/-- C7 (amended): no ingested event ever moves a run's status back to
`running`; an explicit cancellation event sets `canceled` from any status
(in particular overriding `running`), as does `setStatus`; and events ingested
after any status, terminal ones included, still append to the log and update
the counters — but later terminal events do overwrite an earlier terminal
status. -/
theorem status_transition_properties :
    (∀ (run : RunState) (e : SSEEvent),
        (addEventRun run e).status = Status.running → run.status = Status.running)
    ∧ (∀ (b : EventBuffer) (r : String) (e : SSEEvent) (run : RunState), b.runs r = some run →
        (addEvent b r e).runs r = some (addEventRun run e) ∧
        (addEventRun run e).events = run.events ++ [e] ∧
        (e.type = "agent_response" →
          (addEventRun run e).agentsResponded = run.agentsResponded + 1) ∧
        (e.type = "agents_created" →
          (addEventRun run e).agentsTotal = numOrNullish (eget e "count") 0))
    ∧ (∀ (run : RunState) (e : SSEEvent), e.type = "cancelled" →
        (addEventRun run e).status = Status.canceled)
    ∧ (∀ (b : EventBuffer) (r : String) (run : RunState), b.runs r = some run →
        (setStatus b r Status.canceled).runs r = some { run with status := Status.canceled }) := by
  refine ⟨?_, ?_, ?_, ?_⟩
  · exact addEventRun_status_running
  · intro b r e run h
    refine ⟨?_, addEventRun_events run e, ?_, ?_⟩
    · rw [addEvent_runs_of_some h]; simp
    · intro ht; simp [addEventRun, ht]
    · intro ht; simp [addEventRun, ht]
  · intro run e ht
    simp [addEventRun, ht]
  · intro b r run h
    rw [setStatus_runs_of_some h]; simp

/-- C7 witness: the amended status properties at concrete inputs. -/
theorem status_transition_concrete :
    freshRun.status = Status.running ∧
    (addEvent (createRun emptyBuffer "R1") "R1" evResp).runs "R1" =
      some (addEventRun freshRun evResp) ∧
    (addEventRun freshRun evCancelled).status = Status.canceled ∧
    (setStatus (createRun emptyBuffer "R1") "R1" Status.canceled).runs "R1" =
      some { freshRun with status := Status.canceled } := by
  refine ⟨?_, ?_, ?_, ?_⟩
  · exact status_transition_properties.1 freshRun evResp rfl
  · exact (status_transition_properties.2.1 (createRun emptyBuffer "R1") "R1" evResp freshRun
      (by simp [createRun])).1
  · exact status_transition_properties.2.2.1 freshRun evCancelled rfl
  · exact status_transition_properties.2.2.2 (createRun emptyBuffer "R1") "R1" freshRun
      (by simp [createRun])

/-- C3: waiter settlement is exactly-once — `notifyWaiters` clears the
registration list for the id before invoking the copied waiters, so a
re-entrant notification wakes nobody again; every registered, unsettled waiter
is woken exactly once (its resolve count rises by exactly one, its timer is
cleared); and repeated triggers of one waiter's `settle` closure, from
notification or timeout in any order, resolve it exactly once and cancel the
losing timer, deregistering the waiter. -/
theorem waiter_settlement_exactly_once :
    (∀ (b : EventBuffer) (r : String), (notifyWaiters b r).waiters r = [])
    ∧ (∀ (b : EventBuffer) (r : String),
        notifyWaiters (notifyWaiters b r) r = notifyWaiters b r)
    ∧ (∀ (b : EventBuffer) (r : String), (b.waiters r).Nodup →
        (∀ x ∈ b.waiters r, (b.wstates x).settled = false) →
        ∀ w ∈ b.waiters r,
          ((notifyWaiters b r).wstates w).settled = true ∧
          ((notifyWaiters b r).wstates w).timerActive = false ∧
          ((notifyWaiters b r).wstates w).resolveCount = (b.wstates w).resolveCount + 1)
    ∧ (∀ (b : EventBuffer) (w : Nat) (n : Nat), (b.wstates w).settled = false →
        ((settleIter b w (n + 1)).wstates w).resolveCount = (b.wstates w).resolveCount + 1 ∧
        ((settleIter b w (n + 1)).wstates w).settled = true ∧
        ((settleIter b w (n + 1)).wstates w).timerActive = false)
    ∧ (∀ (b : EventBuffer) (w : Nat), (b.wstates w).settled = false →
        ((b.waiters ((b.wstates w).runId)).Nodup) →
        w ∉ (settle b w).waiters ((b.wstates w).runId)) := by
  refine ⟨notify_clears, notify_idem, notify_wakes, ?_, ?_⟩
  · intro b w n h
    induction n with
    | zero =>
        rw [show settleIter b w 1 = settle b w from rfl, settle_wstates_self h]
        exact ⟨rfl, rfl, rfl⟩
    | succ m ih =>
        have hs : ((settleIter b w (m + 1)).wstates w).settled = true := ih.2.1
        rw [show settleIter b w (m + 2) = settle (settleIter b w (m + 1)) w from rfl,
          settle_of_settled hs]
        exact ih
  · intro b w h hnd
    unfold settle removeWaiter
    simp only [h, Bool.false_eq_true, if_false, if_pos, eq_self_iff_true, if_true]
    intro hmem
    exact ((List.Nodup.mem_erase_iff hnd).mp hmem).1 rfl

/-- C3 witness: the settlement properties at a buffer holding one registered,
unsettled waiter. -/
theorem waiter_settlement_concrete :
    (notifyWaiters waiterBuf "R1").waiters "R1" = [] ∧
    ((notifyWaiters waiterBuf "R1").wstates 0).settled = true ∧
    ((notifyWaiters waiterBuf "R1").wstates 0).timerActive = false ∧
    ((notifyWaiters waiterBuf "R1").wstates 0).resolveCount =
      (waiterBuf.wstates 0).resolveCount + 1 ∧
    ((settleIter waiterBuf 0 1).wstates 0).resolveCount =
      (waiterBuf.wstates 0).resolveCount + 1 := by
  have h3 := waiter_settlement_exactly_once.2.2.1 waiterBuf "R1" (by simp [waiterBuf])
    (by simp [waiterBuf]) 0 (by simp [waiterBuf])
  have h4 := waiter_settlement_exactly_once.2.2.2.1 waiterBuf 0 0 (by simp [waiterBuf])
  exact ⟨waiter_settlement_exactly_once.1 waiterBuf "R1", h3.1, h3.2.1, h3.2.2, h4.1⟩

/-- C9: the `cancelled` event type is outside the interesting set; ingesting
it on a known run still appends it to the log, sets the status to `canceled`,
and notifies (clears and wakes) the waiters registered for the run, yet no
`getNewEvents` result ever contains an event of type `cancelled`. -/
theorem cancelled_event_semantics :
    interesting "cancelled" = false
    ∧ (∀ (b : EventBuffer) (r : String) (e : SSEEvent) (run : RunState),
        e.type = "cancelled" → b.runs r = some run →
        (addEvent b r e).runs r = some (addEventRun run e) ∧
        (addEventRun run e).status = Status.canceled ∧
        (addEventRun run e).events = run.events ++ [e] ∧
        (addEvent b r e).waiters r = [] ∧
        ((b.waiters r).Nodup →
          (∀ x ∈ b.waiters r, (b.wstates x).settled = false) →
          ∀ w ∈ b.waiters r, ((addEvent b r e).wstates w).settled = true ∧
            ((addEvent b r e).wstates w).resolveCount = (b.wstates w).resolveCount + 1))
    ∧ (∀ (b : EventBuffer) (r : String) (res : PollResult),
        (getNewEvents b r).1 = some res → ∀ e ∈ res.newEvents, e.type ≠ "cancelled") := by
  refine ⟨rfl, ?_, ?_⟩
  · intro b r e run ht h
    have hcond : (interesting e.type || e.type == "cancelled") = true := by
      rw [ht]; rfl
    have haddeq : addEvent b r e =
        notifyWaiters
          { b with runs := fun id => if id = r then some (addEventRun run e) else b.runs id } r := by
      unfold addEvent
      rw [h]
      simp [hcond]
    refine ⟨?_, by simp [addEventRun, ht], addEventRun_events run e, ?_, ?_⟩
    · rw [addEvent_runs_of_some h]; simp
    · rw [haddeq]; exact notify_clears _ r
    · intro hnd hun w hw
      rw [haddeq]
      have hh := notify_wakes
        { b with runs := fun id => if id = r then some (addEventRun run e) else b.runs id }
        r hnd hun w hw
      exact ⟨hh.1, hh.2.2⟩
  · intro b r res hres e hmem hcontra
    cases h : b.runs r with
    | none =>
        rw [getNewEvents, h] at hres
        exact Option.noConfusion hres
    | some run =>
        rw [getNewEvents_fst_of_some h] at hres
        cases Option.some.inj hres
        have hint : interesting e.type = true := (List.mem_filter.mp hmem).2
        rw [hcontra] at hint
        exact absurd hint (by decide)

/-- C9 witness: ingesting a `cancelled` event on a run with one registered
waiter appends it, cancels the run, clears the waiter list and settles the
waiter. -/
theorem cancelled_event_concrete :
    (addEvent waiterBuf "R1" evCancelled).runs "R1" = some (addEventRun freshRun evCancelled) ∧
    (addEventRun freshRun evCancelled).status = Status.canceled ∧
    (addEventRun freshRun evCancelled).events = freshRun.events ++ [evCancelled] ∧
    (addEvent waiterBuf "R1" evCancelled).waiters "R1" = [] ∧
    ((addEvent waiterBuf "R1" evCancelled).wstates 0).settled = true := by
  have h := cancelled_event_semantics.2.1 waiterBuf "R1" evCancelled freshRun rfl
    (by simp [waiterBuf])
  refine ⟨h.1, h.2.1, h.2.2.1, h.2.2.2.1, ?_⟩
  exact (h.2.2.2.2 (by simp [waiterBuf]) (by simp [waiterBuf]) 0 (by simp [waiterBuf])).1

theorem pdelivered_cons_padd (runId : String) (b : EventBuffer) (e : SSEEvent) (ops : List POp) :
    pdelivered runId b (POp.padd e :: ops) = pdelivered runId (addEvent b runId e) ops := rfl

theorem pdelivered_cons_ppoll (runId : String) (b : EventBuffer) (ops : List POp) :
    pdelivered runId b (POp.ppoll :: ops) =
      (match (getNewEvents b runId).1 with
       | some res => res.newEvents
       | none => []) ++ pdelivered runId ((getNewEvents b runId).2) ops := rfl

theorem pdelivered_trace_eq (runId : String) :
    ∀ (ops : List POp) (b : EventBuffer) (run : RunState),
      b.runs runId = some run → run.lastPollIndex ≤ run.events.length →
      pdelivered runId b (ops ++ [POp.ppoll]) =
        ((run.events.drop run.lastPollIndex) ++ appendedEvents ops).filter
          (fun e => interesting e.type) := by
  intro ops
  induction ops with
  | nil =>
      intro b run h _
      rw [List.nil_append, pdelivered_cons_ppoll, getNewEvents_fst_of_some h]
      simp [pdelivered, appendedEvents]
  | cons op ops ih =>
      intro b run h hc
      cases op with
      | padd e =>
          rw [List.cons_append, pdelivered_cons_padd]
          have hrun' : (addEvent b runId e).runs runId = some (addEventRun run e) := by
            rw [addEvent_runs_of_some h]; simp
          have hc' : (addEventRun run e).lastPollIndex ≤ (addEventRun run e).events.length := by
            rw [addEventRun_lastPollIndex, addEventRun_events, List.length_append]
            omega
          rw [ih (addEvent b runId e) (addEventRun run e) hrun' hc',
            addEventRun_lastPollIndex, addEventRun_events,
            List.drop_append_of_le_length hc, List.append_assoc]
          rfl
      | ppoll =>
          rw [List.cons_append, pdelivered_cons_ppoll, getNewEvents_fst_of_some h]
          have hrun' : ((getNewEvents b runId).2).runs runId =
              some { run with lastPollIndex := run.events.length } := by
            rw [getNewEvents_runs_of_some h]; simp
          have hc' : ({ run with lastPollIndex := run.events.length } : RunState).lastPollIndex ≤
              ({ run with lastPollIndex := run.events.length } : RunState).events.length := le_refl _
          rw [ih ((getNewEvents b runId).2) _ hrun' hc']
          show ((run.events.drop run.lastPollIndex).filter (fun e => interesting e.type)) ++ _ = _
          rw [List.drop_length, List.nil_append, ← List.filter_append]
          rfl

/-- C1: across any sequential (non-interleaved) trace of event appends and
`getNewEvents` calls on one run, the concatenation of all returned batches is
exactly the interesting subsequence, in append order, of the events pending at
the start followed by the events appended during the trace — so no interesting
event is ever delivered twice and none is skipped once a final poll runs; and
every `getNewEvents` call on a known run leaves the read cursor equal to the
event log length at the time of that call. -/
theorem sequential_polls_deliver_exactly_once :
    (∀ (runId : String) (ops : List POp) (b : EventBuffer) (run : RunState),
        b.runs runId = some run → run.lastPollIndex ≤ run.events.length →
        pdelivered runId b (ops ++ [POp.ppoll]) =
          ((run.events.drop run.lastPollIndex) ++ appendedEvents ops).filter
            (fun e => interesting e.type))
    ∧ (∀ (runId : String) (b : EventBuffer) (run : RunState), b.runs runId = some run →
        ((getNewEvents b runId).2).runs runId =
          some { run with lastPollIndex := run.events.length }) := by
  constructor
  · intro runId
    exact pdelivered_trace_eq runId
  · intro runId b run h
    rw [getNewEvents_runs_of_some h]
    simp

/-- C1 witness: the trace property and the cursor property at concrete
inputs. -/
theorem sequential_polls_concrete :
    pdelivered "R1" (createRun emptyBuffer "R1") ([POp.padd evResp] ++ [POp.ppoll]) =
      ((freshRun.events.drop freshRun.lastPollIndex) ++ appendedEvents [POp.padd evResp]).filter
        (fun e => interesting e.type) ∧
    ((getNewEvents (createRun emptyBuffer "R1") "R1").2).runs "R1" =
      some { freshRun with lastPollIndex := freshRun.events.length } :=
  ⟨sequential_polls_deliver_exactly_once.1 "R1" [POp.padd evResp] (createRun emptyBuffer "R1")
      freshRun (by simp [createRun]) (by simp [freshRun]),
    sequential_polls_deliver_exactly_once.2 "R1" (createRun emptyBuffer "R1") freshRun
      (by simp [createRun])⟩

theorem applyBufOp_cursor_inv (b : EventBuffer) (op : BufOp) (h : CursorInv b) :
    CursorInv (applyBufOp b op) := by
  cases op with
  | bcreate r =>
      intro id run hid
      by_cases hidr : id = r
      · simp only [applyBufOp, createRun, hidr, if_pos] at hid
        cases Option.some.inj hid
        simp [freshRun]
      · simp only [applyBufOp, createRun, hidr, if_false] at hid
        exact h id run hid
  | badd r e =>
      cases hr : b.runs r with
      | none =>
          intro id run hid
          rw [show applyBufOp b (BufOp.badd r e) = addEvent b r e from rfl,
            addEvent_runs_of_none hr] at hid
          exact h id run hid
      | some run0 =>
          intro id run hid
          rw [show applyBufOp b (BufOp.badd r e) = addEvent b r e from rfl,
            addEvent_runs_of_some hr] at hid
          by_cases hidr : id = r
          · simp only [hidr, if_pos] at hid
            cases Option.some.inj hid
            rw [addEventRun_lastPollIndex, addEventRun_events, List.length_append]
            have := h r run0 hr
            omega
          · simp only [hidr, if_false] at hid
            exact h id run hid
  | bpoll r =>
      cases hr : b.runs r with
      | none =>
          intro id run hid
          rw [show applyBufOp b (BufOp.bpoll r) = (getNewEvents b r).2 from rfl] at hid
          unfold getNewEvents at hid
          rw [hr] at hid
          exact h id run hid
      | some run0 =>
          intro id run hid
          rw [show applyBufOp b (BufOp.bpoll r) = (getNewEvents b r).2 from rfl,
            getNewEvents_runs_of_some hr] at hid
          by_cases hidr : id = r
          · simp only [hidr, if_pos] at hid
            cases Option.some.inj hid
            exact le_refl _
          · simp only [hidr, if_false] at hid
            exact h id run hid
  | bset r st =>
      cases hr : b.runs r with
      | none =>
          intro id run hid
          rw [show applyBufOp b (BufOp.bset r st) = setStatus b r st from rfl] at hid
          unfold setStatus at hid
          rw [hr] at hid
          exact h id run hid
      | some run0 =>
          intro id run hid
          rw [show applyBufOp b (BufOp.bset r st) = setStatus b r st from rfl,
            setStatus_runs_of_some hr] at hid
          by_cases hidr : id = r
          · simp only [hidr, if_pos] at hid
            cases Option.some.inj hid
            exact h r run0 hr
          · simp only [hidr, if_false] at hid
            exact h id run hid
  | bwait r =>
      intro id run hid
      rw [show applyBufOp b (BufOp.bwait r) = (waitForEvents b r).2 from rfl,
        waitForEvents_runs] at hid
      exact h id run hid

theorem runBufOps_cursor_inv : ∀ (ops : List BufOp) (b : EventBuffer),
    CursorInv b → CursorInv (runBufOps b ops) := by
  intro ops
  induction ops with
  | nil => intro b h; exact h
  | cons op rest ih =>
      intro b h
      exact ih (applyBufOp b op) (applyBufOp_cursor_inv b op h)

/-- C6: over every sequence of buffer operations the read cursor of every
tracked run stays at most its event log length; and the log is append-only —
an `addEvent` on an existing run produces exactly the old log with the one new
event appended (so the length grows by one and no earlier event's content or
position changes), while `getNewEvents`, `setStatus` and `waitForEvents` leave
every run's log untouched. -/
theorem cursor_bound_and_append_only :
    (∀ (b : EventBuffer) (ops : List BufOp), CursorInv b → CursorInv (runBufOps b ops))
    ∧ (∀ (b : EventBuffer) (r : String) (e : SSEEvent) (run : RunState), b.runs r = some run →
        ∃ run', (addEvent b r e).runs r = some run' ∧ run'.events = run.events ++ [e])
    ∧ (∀ (b : EventBuffer) (r : String) (run : RunState), b.runs r = some run →
        ∃ run', ((getNewEvents b r).2).runs r = some run' ∧ run'.events = run.events)
    ∧ (∀ (b : EventBuffer) (r : String) (st : Status) (run : RunState), b.runs r = some run →
        ∃ run', (setStatus b r st).runs r = some run' ∧ run'.events = run.events)
    ∧ (∀ (b : EventBuffer) (r : String), ((waitForEvents b r).2).runs r = b.runs r) := by
  refine ⟨fun b ops h => runBufOps_cursor_inv ops b h, ?_, ?_, ?_, ?_⟩
  · intro b r e run h
    refine ⟨addEventRun run e, ?_, addEventRun_events run e⟩
    rw [addEvent_runs_of_some h]; simp
  · intro b r run h
    refine ⟨{ run with lastPollIndex := run.events.length }, ?_, rfl⟩
    rw [getNewEvents_runs_of_some h]; simp
  · intro b r st run h
    refine ⟨{ run with status := st }, ?_, rfl⟩
    rw [setStatus_runs_of_some h]; simp
  · intro b r
    rw [waitForEvents_runs]

/-- C6 witness: the invariant and the append property at concrete inputs. -/
theorem cursor_bound_concrete :
    CursorInv (runBufOps emptyBuffer
      [BufOp.bcreate "R1", BufOp.badd "R1" evResp, BufOp.bpoll "R1"]) ∧
    (∃ run', (addEvent (createRun emptyBuffer "R1") "R1" evResp).runs "R1" = some run' ∧
      run'.events = freshRun.events ++ [evResp]) :=
  ⟨cursor_bound_and_append_only.1 emptyBuffer
      [BufOp.bcreate "R1", BufOp.badd "R1" evResp, BufOp.bpoll "R1"]
      (by intro id run h; simp [emptyBuffer] at h),
    cursor_bound_and_append_only.2.1 (createRun emptyBuffer "R1") "R1" evResp freshRun
      (by simp [createRun])⟩

theorem inner_fold_eq (roundNum : Int) : ∀ (rs : List JVal) (acc : List RespEntry),
    rs.foldl (fun acc3 r => acc3 ++ [mkRespEntry roundNum r]) acc =
      acc ++ rs.map (mkRespEntry roundNum) := by
  intro rs
  induction rs with
  | nil => intro acc; simp
  | cons r rest ih =>
      intro acc
      rw [List.foldl_cons, ih]
      simp

theorem node_fold_eq : ∀ (nodes : List JVal) (acc : List RespEntry),
    nodes.foldl
        (fun acc2 node =>
          (arrOrFalsy (jget node "responses")).foldl
            (fun acc3 r => acc3 ++ [mkRespEntry (numOrFalsy (jget node "round") 1) r]) acc2)
        acc =
      acc ++ nodes.flatMap (fun node =>
        (arrOrFalsy (jget node "responses")).map
          (mkRespEntry (numOrFalsy (jget node "round") 1))) := by
  intro nodes
  induction nodes with
  | nil => intro acc; simp
  | cons n rest ih =>
      intro acc
      rw [List.foldl_cons, inner_fold_eq, ih]
      simp

theorem round_fold_eq : ∀ (rrs : List JVal) (acc : List RespEntry),
    rrs.foldl
        (fun acc rd =>
          (arrOrFalsy (jget rd "node_results")).foldl
            (fun acc2 node =>
              (arrOrFalsy (jget node "responses")).foldl
                (fun acc3 r => acc3 ++ [mkRespEntry (numOrFalsy (jget node "round") 1) r]) acc2)
            acc)
        acc =
      acc ++ rrs.flatMap (fun rd =>
        (arrOrFalsy (jget rd "node_results")).flatMap (fun node =>
          (arrOrFalsy (jget node "responses")).map
            (mkRespEntry (numOrFalsy (jget node "round") 1)))) := by
  intro rrs
  induction rrs with
  | nil => intro acc; simp
  | cons rd rest ih =>
      intro acc
      rw [List.foldl_cons, node_fold_eq, ih]
      simp

theorem buildResponses_eq (rrs : List JVal) :
    buildResponses rrs =
      rrs.flatMap (fun rd =>
        (arrOrFalsy (jget rd "node_results")).flatMap (fun node =>
          (arrOrFalsy (jget node "responses")).map
            (mkRespEntry (numOrFalsy (jget node "round") 1)))) := by
  unfold buildResponses
  rw [round_fold_eq]
  simp

/-- C8: `getPublishData` coincides with its specification — a not-available
sentinel exactly when the run is unknown, not `completed`, has no cached
terminal result, or the terminal payload lacks the conversation structure; and
otherwise the flattened responses in original (round, node, response) order,
round taken from each node, reasoning-trace markup stripped from each message,
and the topology label falling back to agent-count inference when no explicit
topology field is present. -/
theorem getPublishData_matches_spec :
    ∀ (b : EventBuffer) (runId : String),
      getPublishData b runId = getPublishDataSpec b runId := by
  intro b runId
  unfold getPublishData getPublishDataSpec
  cases hb : b.runs runId with
  | none => rfl
  | some run =>
      by_cases hst : run.status = Status.completed
      · cases hf : run.finalResult with
        | none => simp [hst, hf]
        | some final =>
            by_cases hco : truthy (eget final "conversation") = true
            · simp only [hst, hf, hco, ne_eq, not_true_eq_false, if_false, and_self, if_true,
                if_pos, buildResponses_eq, inferTopology]
            · simp [hst, hf, hco]
      · cases hf : run.finalResult with
        | none => simp [hst, hf]
        | some final => simp [hst, hf]

end Wisepanel
